import Mathlib

/-!
Shallow embedding of the brick detection and tracking engine
(files src/models/detection_result.py, src/vision/brick_detector.py,
src/vision/detection_state.py, src/vision/detection_engine.py),
together with theorems settling the specification claims about it.

Conventions: Python floats are modelled as rationals, Python ints as
integers, Python lists as Lean lists, a raised validation exception as
an Option-valued constructor returning none, and the mutable state of a
class instance as an explicit state record threaded through operations.
-/

/-- Model of the dataclass DetectionResult (src/models/detection_result.py).
The bounding box is the 4-tuple (x, y, width, height); the Python
construction-time validation lives in DetectionResult.make below. -/
structure DetectionResult where
  brick_id : String
  bbox : ℤ × ℤ × ℤ × ℤ
  confidence : ℚ
  center_point : ℤ × ℤ
  color : String
  timestamp : ℕ
deriving DecidableEq

/-- Model of DetectionResult.__post_init__ validation: construction raises
(returns none) when the confidence is outside [0.0, 1.0]; a missing
timestamp defaults to the current time (passed in as now) and a missing
center point defaults to (x + w // 2, y + h // 2), with // the Python
floor division, i.e. Int.fdiv. -/
def DetectionResult.make (brick_id : String) (bbox : ℤ × ℤ × ℤ × ℤ)
    (confidence : ℚ) (center_point : Option (ℤ × ℤ)) (color : String)
    (timestamp : Option ℕ) (now : ℕ) : Option DetectionResult :=
  if ¬ (0 ≤ confidence ∧ confidence ≤ 1) then none
  else
    match bbox with
    | (x, y, w, h) =>
      some { brick_id := brick_id
             bbox := bbox
             confidence := confidence
             center_point := center_point.getD (x + Int.fdiv w 2, y + Int.fdiv h 2)
             color := color
             timestamp := timestamp.getD now }

/-- C7: constructing a DetectionResult succeeds exactly when the confidence
lies in [0.0, 1.0]; any confidence below 0 or above 1 fails validation. -/
theorem detectionResult_make_isSome_iff (brick_id : String)
    (bbox : ℤ × ℤ × ℤ × ℤ) (confidence : ℚ) (center_point : Option (ℤ × ℤ))
    (color : String) (timestamp : Option ℕ) (now : ℕ) :
    (DetectionResult.make brick_id bbox confidence center_point color
        timestamp now).isSome = true ↔ (0 ≤ confidence ∧ confidence ≤ 1) := by
  obtain ⟨x, y, w, h⟩ := bbox
  unfold DetectionResult.make
  by_cases h01 : 0 ≤ confidence ∧ confidence ≤ 1
  · simp [h01]
  · simp [h01]

/-- C8: a DetectionResult constructed without an explicit center point
stores (x + w // 2, y + h // 2) (Python floor division), and one
constructed with an explicit center point stores it unchanged. -/
theorem detectionResult_center_point (brick_id : String) (x y w h : ℤ)
    (confidence : ℚ) (cp : ℤ × ℤ) (color : String) (timestamp : Option ℕ)
    (now : ℕ) :
    (∀ r, DetectionResult.make brick_id (x, y, w, h) confidence none color
        timestamp now = some r →
        r.center_point = (x + Int.fdiv w 2, y + Int.fdiv h 2)) ∧
    (∀ r, DetectionResult.make brick_id (x, y, w, h) confidence (some cp)
        color timestamp now = some r → r.center_point = cp) := by
  constructor
  · intro r hr
    unfold DetectionResult.make at hr
    by_cases h01 : 0 ≤ confidence ∧ confidence ≤ 1
    · simp [h01] at hr
      rw [← hr]
    · simp [h01] at hr
  · intro r hr
    unfold DetectionResult.make at hr
    by_cases h01 : 0 ≤ confidence ∧ confidence ≤ 1
    · simp [h01] at hr
      rw [← hr]
    · simp [h01] at hr

/-- Witness for C8 at a concrete input: bbox (4, 6, 10, 3), confidence 1/2. -/
theorem detectionResult_center_point_witness :
    (∀ r, DetectionResult.make "3005" (4, 6, 10, 3) (1/2) none "red"
        none 0 = some r → r.center_point = (4 + Int.fdiv 10 2, 6 + Int.fdiv 3 2)) ∧
    (∀ r, DetectionResult.make "3005" (4, 6, 10, 3) (1/2) (some (7, 7)) "red"
        none 0 = some r → r.center_point = (7, 7)) :=
  detectionResult_center_point "3005" 4 6 10 3 (1/2) (7, 7) "red" none 0

/-! ## BrickDetector (src/vision/brick_detector.py)

The parts of BrickDetector the claims are about are pure list
manipulation: _bboxes_overlap, _filter_detections (non-maximum
suppression), _update_history and get_stable_detections. The mutable
field detection_history is modelled as an explicit list of per-frame
detection lists. -/

/-- Model of BrickDetector._bboxes_overlap: intersection-over-union of two
(x, y, w, h) boxes compared against the threshold, with iou taken to be 0
when the union area is not positive. -/
def bboxesOverlap (bbox1 bbox2 : ℤ × ℤ × ℤ × ℤ) (threshold : ℚ) : Bool :=
  match bbox1, bbox2 with
  | (x1, y1, w1, h1), (x2, y2, w2, h2) =>
    let x_left := max x1 x2
    let y_top := max y1 y2
    let x_right := min (x1 + w1) (x2 + w2)
    let y_bottom := min (y1 + h1) (y2 + h2)
    if x_right < x_left ∨ y_bottom < y_top then false
    else
      let intersection_area : ℚ := ((x_right - x_left) * (y_bottom - y_top) : ℤ)
      let union_area : ℚ := ((w1 * h1 + w2 * h2 : ℤ) : ℚ) - intersection_area
      let iou : ℚ := if 0 < union_area then intersection_area / union_area else 0
      decide (threshold < iou)

/-- The descending-confidence ordering used by _filter_detections. -/
def confGE (a b : DetectionResult) : Prop := b.confidence ≤ a.confidence

instance : DecidableRel confGE := fun _ _ => inferInstanceAs (Decidable (_ ≤ _))

instance : IsTotal DetectionResult confGE := ⟨fun x y => le_total y.confidence x.confidence⟩

instance : IsTrans DetectionResult confGE := ⟨fun _ _ _ hab hbc => le_trans hbc hab⟩

/-- Model of Python list.sort(key=confidence, reverse=True): a stable sort
by descending confidence. Mathlib's insertionSort with the relation confGE
is exactly such a stable sort (an element is inserted before the first
element of no larger confidence). -/
def sortByConfDesc (detections : List DetectionResult) : List DetectionResult :=
  detections.insertionSort confGE

/-- The greedy non-maximum-suppression loop of _filter_detections: walk the
sorted detections, appending each one to the kept list unless it overlaps
(IoU > 0.3) one already kept. -/
def nmsKeep (kept : List DetectionResult) : List DetectionResult → List DetectionResult
  | [] => kept
  | d :: ds =>
    if kept.any (fun e => bboxesOverlap d.bbox e.bbox (3/10)) then nmsKeep kept ds
    else nmsKeep (kept ++ [d]) ds

/-- Model of BrickDetector._filter_detections: sort by confidence
descending, greedily suppress overlapping detections, keep the top 10. -/
def filterDetections (detections : List DetectionResult) : List DetectionResult :=
  if detections.isEmpty then []
  else (nmsKeep [] (sortByConfDesc detections)).take 10

/-- Model of BrickDetector._update_history: append the newest frame's
detections and drop the oldest frame once more than 10 are retained. -/
def updateHistory (history : List (List DetectionResult))
    (detections : List DetectionResult) : List (List DetectionResult) :=
  let h := history ++ [detections]
  if 10 < h.length then h.drop 1 else h

/-- The detections of the last 3 frames of the history, in frame order
(history[-3:] flattened in iteration order). -/
def recentDetections (history : List (List DetectionResult)) : List DetectionResult :=
  (history.drop (history.length - 3)).flatten

/-- First-occurrence deduplication of a key list: the iteration order of a
Python dict whose keys were inserted in list order. -/
def dedupFirst : List String → List String
  | [] => []
  | k :: ks => k :: (dedupFirst ks).filter (fun x => x ≠ k)

/-- Model of BrickDetector.get_stable_detections: with fewer than 3 frames
of history return []; otherwise group the detections of the last 3 frames
by brick_id (a dict keyed in first-occurrence order, each key holding its
detections in traversal order) and emit, for every id with at least 2
collected detections, the most recent one. -/
def getStableDetections (history : List (List DetectionResult)) : List DetectionResult :=
  if history.length < 3 then []
  else
    let recent := recentDetections history
    let keys := dedupFirst (recent.map (fun d => d.brick_id))
    keys.filterMap (fun k =>
      let occ := recent.filter (fun d => d.brick_id = k)
      if 2 ≤ occ.length then occ.getLast? else none)

/-! ### Lemmas about dedupFirst and the stability computation (C1) -/

theorem mem_dedupFirst {x : String} : ∀ {l : List String}, x ∈ dedupFirst l ↔ x ∈ l := by
  intro l
  induction l with
  | nil => simp [dedupFirst]
  | cons k ks ih =>
    simp only [dedupFirst, List.mem_cons, List.mem_filter, decide_eq_true_eq]
    constructor
    · rintro (rfl | ⟨hx, _⟩)
      · exact Or.inl rfl
      · exact Or.inr (ih.mp hx)
    · rintro (rfl | hx)
      · exact Or.inl rfl
      · by_cases hk : x = k
        · exact Or.inl hk
        · exact Or.inr ⟨ih.mpr hx, hk⟩

theorem nodup_dedupFirst : ∀ (l : List String), (dedupFirst l).Nodup := by
  intro l
  induction l with
  | nil => simp [dedupFirst]
  | cons k ks ih =>
    simp only [dedupFirst]
    refine List.Nodup.cons ?_ (List.Nodup.filter _ ih)
    intro hmem
    rcases List.mem_filter.mp hmem with ⟨_, habs⟩
    simp at habs

/-- The keys whose occurrence list drives get_stable_detections are exactly
the brick ids of a representative, and each emitted representative is the
last occurrence of its id. -/
theorem mem_getStableDetections {history : List (List DetectionResult)}
    (h3 : 3 ≤ history.length) (d : DetectionResult) :
    d ∈ getStableDetections history ↔
      2 ≤ ((recentDetections history).filter
            (fun e => e.brick_id = d.brick_id)).length ∧
      ((recentDetections history).filter
            (fun e => e.brick_id = d.brick_id)).getLast? = some d := by
  have hnot : ¬ history.length < 3 := not_lt.mpr h3
  unfold getStableDetections
  simp only [hnot, if_false, List.mem_filterMap]
  constructor
  · rintro ⟨k, hk, hfk⟩
    by_cases hlen : 2 ≤ ((recentDetections history).filter
        (fun e => e.brick_id = k)).length
    · rw [if_pos hlen] at hfk
      have hd : d ∈ (recentDetections history).filter (fun e => e.brick_id = k) :=
        List.mem_of_getLast?_eq_some hfk
      have hid : d.brick_id = k := by
        have := (List.mem_filter.mp hd).2
        simpa using this
      subst hid
      exact ⟨hlen, hfk⟩
    · rw [if_neg hlen] at hfk
      exact absurd hfk (by simp)
  · rintro ⟨hlen, hlast⟩
    refine ⟨d.brick_id, ?_, ?_⟩
    · have hd : d ∈ (recentDetections history).filter
          (fun e => e.brick_id = d.brick_id) :=
        List.mem_of_getLast?_eq_some hlast
      have hdr : d ∈ recentDetections history := (List.mem_filter.mp hd).1
      exact mem_dedupFirst.mpr (List.mem_map.mpr ⟨d, hdr, rfl⟩)
    · rw [if_pos hlen]
      exact hlast

theorem getStableDetections_pairwise_ne (history : List (List DetectionResult)) :
    (getStableDetections history).Pairwise (fun a b => a.brick_id ≠ b.brick_id) := by
  unfold getStableDetections
  by_cases hlen : history.length < 3
  · simp [hlen]
  · simp only [hlen, if_false]
    rw [List.pairwise_filterMap]
    have hnd := nodup_dedupFirst ((recentDetections history).map (fun d => d.brick_id))
    refine hnd.imp ?_
    intro k k' hkk d hd d' hd'
    simp only [Option.mem_def] at hd hd'
    by_cases h2 : 2 ≤ ((recentDetections history).filter
        (fun e => e.brick_id = k)).length
    · rw [if_pos h2] at hd
      by_cases h2' : 2 ≤ ((recentDetections history).filter
          (fun e => e.brick_id = k')).length
      · rw [if_pos h2'] at hd'
        have hdk : d.brick_id = k := by
          have := (List.mem_filter.mp (List.mem_of_getLast?_eq_some hd)).2
          simpa using this
        have hdk' : d'.brick_id = k' := by
          have := (List.mem_filter.mp (List.mem_of_getLast?_eq_some hd')).2
          simpa using this
        rw [hdk, hdk']
        exact hkk
      · rw [if_neg h2'] at hd'
        exact absurd hd' (by simp)
    · rw [if_neg h2] at hd
      exact absurd hd (by simp)

/-- A sample detection used in concrete instantiations: identity bid,
a 10 x 10 box whose left edge is at x, confidence c. -/
def sampleDet (bid : String) (x : ℤ) (c : ℚ) : DetectionResult :=
  { brick_id := bid, bbox := (x, 0, 10, 10), confidence := c,
    center_point := (x + 5, 5), color := "", timestamp := 0 }

/-- C1 counterexample: the stability quorum counts occurrences, not
distinct frames. With 3 pushed frames in which identity "3005" occurs
twice inside the first frame and nowhere else, it appears in only 1 of
the last 3 frames, yet get_stable_detections still reports it. -/
theorem getStableDetections_frame_quorum_counterexample :
    (([[sampleDet "3005" 0 (1/2), sampleDet "3005" 100 (1/2)], [], []] :
        List (List DetectionResult)).filter
          (fun frame => frame.any (fun d => d.brick_id = "3005"))).length = 1 ∧
    getStableDetections
        [[sampleDet "3005" 0 (1/2), sampleDet "3005" 100 (1/2)], [], []] =
      [sampleDet "3005" 100 (1/2)] := by
  constructor
  · rfl
  · rfl

/-- C1 amended: with fewer than 3 pushed frames get_stable_detections
returns []; with at least 3, it returns exactly one representative per
identity having at least 2 occurrences among the detections of the last
3 pushed frames (occurrences in the same frame both count), the
representative being that identity's most recent occurrence, and no
result for an identity with fewer than 2 occurrences. -/
theorem getStableDetections_occurrence_quorum (history : List (List DetectionResult)) :
    (history.length < 3 → getStableDetections history = []) ∧
    (3 ≤ history.length →
      ((getStableDetections history).Pairwise (fun a b => a.brick_id ≠ b.brick_id) ∧
       ∀ d : DetectionResult,
         d ∈ getStableDetections history ↔
           2 ≤ ((recentDetections history).filter
                 (fun e => e.brick_id = d.brick_id)).length ∧
           ((recentDetections history).filter
                 (fun e => e.brick_id = d.brick_id)).getLast? = some d)) := by
  constructor
  · intro hlt
    unfold getStableDetections
    simp [hlt]
  · intro h3
    exact ⟨getStableDetections_pairwise_ne history,
           fun d => mem_getStableDetections h3 d⟩

/-- Witness for C1 at the spec's own example: identity "3005" appears in
frames 1 and 3 of 3 pushed frames, so its most recent occurrence is
reported as stable. -/
theorem getStableDetections_occurrence_quorum_witness :
    3 ≤ ([[sampleDet "3005" 0 (1/2)], [], [sampleDet "3005" 2 (3/5)]] :
        List (List DetectionResult)).length ∧
    sampleDet "3005" 2 (3/5) ∈
      getStableDetections [[sampleDet "3005" 0 (1/2)], [], [sampleDet "3005" 2 (3/5)]] := by
  refine ⟨by decide, ?_⟩
  have h := (getStableDetections_occurrence_quorum
      [[sampleDet "3005" 0 (1/2)], [], [sampleDet "3005" 2 (3/5)]]).2 (by decide)
  exact (h.2 (sampleDet "3005" 2 (3/5))).mpr (by constructor <;> rfl)

/-! ### Lemmas about non-maximum suppression (C3) -/

theorem bboxesOverlap_symm (bbox1 bbox2 : ℤ × ℤ × ℤ × ℤ) (threshold : ℚ) :
    bboxesOverlap bbox1 bbox2 threshold = bboxesOverlap bbox2 bbox1 threshold := by
  obtain ⟨x1, y1, w1, h1⟩ := bbox1
  obtain ⟨x2, y2, w2, h2⟩ := bbox2
  simp only [bboxesOverlap]
  rw [max_comm x2 x1, max_comm y2 y1, min_comm (x2 + w2) (x1 + w1),
    min_comm (y2 + h2) (y1 + h1), add_comm (w2 * h2) (w1 * h1)]

/-- The relation "these two detections do not overlap above the NMS
threshold". -/
def noOverlap (a b : DetectionResult) : Prop :=
  bboxesOverlap a.bbox b.bbox (3/10) = false

theorem noOverlap_symm {a b : DetectionResult} (h : noOverlap a b) : noOverlap b a := by
  unfold noOverlap at h ⊢
  rw [bboxesOverlap_symm]
  exact h

theorem nmsKeep_eq_append :
    ∀ (pending kept : List DetectionResult),
      ∃ s, s.Sublist pending ∧ nmsKeep kept pending = kept ++ s := by
  intro pending
  induction pending with
  | nil => exact fun kept => ⟨[], List.nil_sublist _, by simp [nmsKeep]⟩
  | cons d ds ih =>
    intro kept
    by_cases h : kept.any (fun e => bboxesOverlap d.bbox e.bbox (3/10)) = true
    · obtain ⟨s, hs, heq⟩ := ih kept
      exact ⟨s, hs.cons d, by simp [nmsKeep, h, heq]⟩
    · obtain ⟨s, hs, heq⟩ := ih (kept ++ [d])
      refine ⟨d :: s, hs.cons₂ d, ?_⟩
      simp only [nmsKeep, h, if_false, Bool.false_eq_true]
      rw [heq, List.append_assoc]
      rfl

theorem nmsKeep_pairwise :
    ∀ (pending kept : List DetectionResult), kept.Pairwise noOverlap →
      (nmsKeep kept pending).Pairwise noOverlap := by
  intro pending
  induction pending with
  | nil => exact fun kept hk => by simpa [nmsKeep] using hk
  | cons d ds ih =>
    intro kept hk
    by_cases h : kept.any (fun e => bboxesOverlap d.bbox e.bbox (3/10)) = true
    · simpa [nmsKeep, h] using ih kept hk
    · simp only [nmsKeep, h, if_false, Bool.false_eq_true]
      refine ih (kept ++ [d]) ?_
      rw [List.pairwise_append]
      refine ⟨hk, List.pairwise_singleton _ _, ?_⟩
      intro a ha b hb
      rcases List.mem_singleton.mp hb with rfl
      have hall := List.any_eq_false.mp (Bool.not_eq_true _ ▸ h) a ha
      exact noOverlap_symm (by simpa using hall)

theorem nmsKeep_of_pairwise :
    ∀ (pending kept : List DetectionResult),
      (kept ++ pending).Pairwise noOverlap → nmsKeep kept pending = kept ++ pending := by
  intro pending
  induction pending with
  | nil => intro kept _; simp [nmsKeep]
  | cons d ds ih =>
    intro kept hp
    have hsplit := List.pairwise_append.mp hp
    have hnot : kept.any (fun e => bboxesOverlap d.bbox e.bbox (3/10)) = false := by
      rw [List.any_eq_false]
      intro e he
      have : noOverlap e d := hsplit.2.2 e he d (List.mem_cons_self d ds)
      simpa using noOverlap_symm this
    simp only [nmsKeep, hnot, Bool.false_eq_true, if_false]
    have hp2 : ((kept ++ [d]) ++ ds).Pairwise noOverlap := by
      rw [List.append_assoc]
      simpa using hp
    rw [ih (kept ++ [d]) hp2, List.append_assoc]
    rfl

/-- C3 counterexample: on a list with no overlapping pair that is not
already in descending-confidence order, _filter_detections re-sorts, so it
does not return the list unchanged. -/
theorem filterDetections_unsorted_counterexample :
    ([sampleDet "a" 0 (Rat.divInt 2 5), sampleDet "b" 100 (Rat.divInt 9 10)] :
        List DetectionResult).Pairwise noOverlap ∧
    filterDetections [sampleDet "a" 0 (Rat.divInt 2 5), sampleDet "b" 100 (Rat.divInt 9 10)] ≠
      [sampleDet "a" 0 (Rat.divInt 2 5), sampleDet "b" 100 (Rat.divInt 9 10)] := by
  constructor
  · refine List.Pairwise.cons ?_ (List.pairwise_singleton _ _)
    intro e he
    rcases List.mem_singleton.mp he with rfl
    rfl
  · decide

/-- C3 amended: _filter_detections is idempotent, and it returns an
already-suppressed list (descending confidence order, no two elements with
IoU > 0.3, at most 10 elements) unchanged; an unsorted or longer input is
re-sorted and truncated rather than returned as-is. -/
theorem filterDetections_idempotent (l : List DetectionResult) :
    (l.Pairwise noOverlap → l.Pairwise confGE → l.length ≤ 10 →
      filterDetections l = l) ∧
    filterDetections (filterDetections l) = filterDetections l := by
  have fixed : ∀ m : List DetectionResult, m.Pairwise noOverlap →
      m.Pairwise confGE → m.length ≤ 10 → filterDetections m = m := by
    intro m hno hsort hlen
    unfold filterDetections
    by_cases hm : m.isEmpty
    · rw [if_pos hm]
      exact (List.isEmpty_iff.mp hm).symm
    · rw [if_neg hm]
      have hs : sortByConfDesc m = m := List.Sorted.insertionSort_eq hsort
      rw [hs, nmsKeep_of_pairwise m [] (by simpa using hno), List.nil_append]
      exact List.take_of_length_le hlen
  refine ⟨fixed l, ?_⟩
  have hsorted : (sortByConfDesc l).Pairwise confGE :=
    List.sorted_insertionSort confGE l
  obtain ⟨s, hsub, heq⟩ := nmsKeep_eq_append (sortByConfDesc l) []
  rw [List.nil_append] at heq
  have hout_sorted : (filterDetections l).Pairwise confGE := by
    unfold filterDetections
    by_cases hl : l.isEmpty
    · simp [hl]
    · rw [if_neg hl, heq]
      exact List.Pairwise.sublist ((List.take_sublist 10 s).trans hsub) hsorted
  have hout_no : (filterDetections l).Pairwise noOverlap := by
    unfold filterDetections
    by_cases hl : l.isEmpty
    · simp [hl]
    · rw [if_neg hl]
      exact List.Pairwise.sublist (List.take_sublist 10 _)
        (nmsKeep_pairwise (sortByConfDesc l) [] List.Pairwise.nil)
  have hout_len : (filterDetections l).length ≤ 10 := by
    unfold filterDetections
    by_cases hl : l.isEmpty
    · simp [hl]
    · rw [if_neg hl]
      exact List.length_take_le 10 _
  exact fixed (filterDetections l) hout_no hout_sorted hout_len

/-- Witness for C3 at a concrete input: an already-suppressed two-element
list is returned unchanged and re-filtering a filtered list is a no-op. -/
theorem filterDetections_idempotent_witness :
    filterDetections [sampleDet "b" 100 (Rat.divInt 9 10), sampleDet "a" 0 (Rat.divInt 2 5)] =
      [sampleDet "b" 100 (Rat.divInt 9 10), sampleDet "a" 0 (Rat.divInt 2 5)] ∧
    filterDetections (filterDetections
        [sampleDet "a" 0 (Rat.divInt 2 5), sampleDet "b" 100 (Rat.divInt 9 10)]) =
      filterDetections [sampleDet "a" 0 (Rat.divInt 2 5), sampleDet "b" 100 (Rat.divInt 9 10)] := by
  constructor
  · refine (filterDetections_idempotent _).1 ?_ ?_ (by decide)
    · refine List.Pairwise.cons ?_ (List.pairwise_singleton _ _)
      intro e he
      rcases List.mem_singleton.mp he with rfl
      rfl
    · refine List.Pairwise.cons ?_ (List.pairwise_singleton _ _)
      intro e he
      rcases List.mem_singleton.mp he with rfl
      exact by decide
  · exact (filterDetections_idempotent _).2

/-! ## DetectionStateManager (src/vision/detection_state.py) -/

/-- Model of the DetectionState enumeration. -/
inductive DetectionState where
  | off
  | loading
  | ready
  | active
  | error
deriving DecidableEq

/-- Model of DetectionStateManager: the pair of fields guarded by its lock
(the lock itself is irrelevant to the sequential claims). -/
structure DetectionStateManager where
  state : DetectionState
  error_message : Option String
deriving DecidableEq

/-- Model of DetectionStateManager.__init__: the freshly constructed
manager starts in LOADING with no error message. -/
def DetectionStateManager.initial : DetectionStateManager :=
  { state := DetectionState.loading, error_message := none }

/-- Model of DetectionStateManager.set_state: overwrite the state and the
error message together (the message argument defaults to None in Python,
so callers that omit it clear the stored message). -/
def DetectionStateManager.setState (m : DetectionStateManager)
    (state : DetectionState) (error_msg : Option String) : DetectionStateManager :=
  { m with state := state, error_message := error_msg }

/-- Model of DetectionStateManager.get_state. -/
def DetectionStateManager.getState (m : DetectionStateManager) : DetectionState :=
  m.state

/-- C2 counterexample: get_state() on a freshly constructed
DetectionStateManager does not return OFF. -/
theorem initial_state_not_off_counterexample :
    DetectionStateManager.initial.getState ≠ DetectionState.off := by
  decide

/-- C2 amended: a freshly constructed DetectionStateManager is in the
LOADING state: get_state() on it returns LOADING, not OFF. -/
theorem initial_state_is_loading :
    DetectionStateManager.initial.getState = DetectionState.loading := rfl

/-! ## YOLOv8Engine (src/vision/detection_engine.py)

The engine's mutable attributes form the state record EngineState. The
effects the engine performs on the outside world — checking that the
weight file exists, importing the runtime, constructing the model,
placing it on a device, and running one round of inference — are passed
in as explicit oracle functions, so that every code path of load_model
and infer is represented. -/

/-- Python substring helpers: charsStartWith needle hay decides whether
hay starts with needle, and strContainsSub hay needle decides Python's
needle in hay. -/
def charsStartWith : List Char → List Char → Bool
  | [], _ => true
  | _ :: _, [] => false
  | a :: as, b :: bs => a == b && charsStartWith as bs

def charsContain (needle : List Char) : List Char → Bool
  | [] => needle.isEmpty
  | c :: rest => charsStartWith needle (c :: rest) || charsContain needle rest

def strContainsSub (hay needle : String) : Bool :=
  charsContain needle.data hay.data

/-- Python str.lower(): lower-case character by character. -/
def strLower (s : String) : String :=
  String.mk (s.data.map Char.toLower)

/-- The error-message test of the CUDA-NMS fallback in YOLOv8Engine.infer:
both "nms" and "cuda" occur in the lowered message. -/
def isCudaNmsError (err_msg : String) : Bool :=
  strContainsSub (strLower err_msg) "nms" && strContainsSub (strLower err_msg) "cuda"

/-- Model of the Detection class of detection_engine.py: bbox is
(x1, y1, x2, y2) in pixel coordinates. -/
structure Detection where
  bbox : ℚ × ℚ × ℚ × ℚ
  class_id : ℕ
  class_name : String
  confidence : ℚ
deriving DecidableEq

/-- One raw box of a YOLOv8 result: box.conf[0], box.xyxy[0], box.cls[0]. -/
structure RawBox where
  conf : ℚ
  xyxy : ℚ × ℚ × ℚ × ℚ
  cls : ℕ
deriving DecidableEq

/-- The mutable attributes of a YOLOv8Engine. model records whether
self.model is non-None; names models the loaded model's class-name table
self.model.names (empty while no model is loaded). -/
structure EngineState where
  model : Bool
  confidence_threshold : ℚ
  state_manager : DetectionStateManager
  last_detections : List Detection
  allowed_class_names : Option (List String)
  device : String
  fallback_attempted : Bool
  names : List (ℕ × String)
deriving DecidableEq

/-- Model of YOLOv8Engine.__init__. -/
def initialEngine (confidence_threshold : ℚ) (device : Option String)
    (cuda_available : Bool) : EngineState :=
  { model := false
    confidence_threshold := confidence_threshold
    state_manager := DetectionStateManager.initial
    last_detections := []
    allowed_class_names := none
    device := match device with
      | some d => d
      | none => if cuda_available then "cuda" else "cpu"
    fallback_attempted := false
    names := [] }

/-- Model of YOLOv8Engine.set_confidence_threshold: clamp into [0, 1]
(float(threshold) never fails on a numeric argument, so the except branch
is unreachable in this model). -/
def setConfidenceThreshold (eng : EngineState) (threshold : ℚ) : EngineState :=
  { eng with confidence_threshold := max 0 (min 1 threshold) }

/-- Model of YOLOv8Engine.set_allowed_class_names: None or an empty
collection disables the filter; otherwise keep the tokens that are
non-blank after stripping, stripped and lower-cased. -/
def setAllowedClassNames (eng : EngineState) (names : Option (List String)) :
    EngineState :=
  match names with
  | none => { eng with allowed_class_names := none }
  | some l =>
    if l.length = 0 then { eng with allowed_class_names := none }
    else
      let toks := (l.filter (fun n => !(n.trim == ""))).map (fun n => strLower n.trim)
      { eng with allowed_class_names := some toks }

/-- The effects load_model performs: whether the path exists on disk,
whether the ultralytics import succeeds, the outcome of constructing
YOLO(path) (on success: the model's class-name table), and the outcome of
model.to(device). -/
structure LoadEnv where
  fsExists : String → Bool
  importOk : Bool
  yoloNames : String → Except String (List (ℕ × String))
  moveTo : String → Except String Unit

/-- Model of YOLOv8Engine.load_model, returning the Python result together
with the updated engine state. A nonexistent path, a missing runtime and a
failing constructor each set ERROR with a message; a device-placement
failure falls back to the CPU device, and only a failing CPU placement
escapes to the outer handler. -/
def loadModel (env : LoadEnv) (eng : EngineState) (model_path : String) :
    Bool × EngineState :=
  if env.fsExists model_path = false then
    let sm := eng.state_manager.setState DetectionState.error (some ("Model file not found: " ++ model_path))
    (false, { eng with state_manager := sm })
  else if env.importOk = false then
    let sm := eng.state_manager.setState DetectionState.error (some "ultralytics package not installed. Run: pip install ultralytics")
    (false, { eng with state_manager := sm })
  else
    match env.yoloNames model_path with
    | Except.error e =>
        let sm := eng.state_manager.setState DetectionState.error (some ("Failed to load model: " ++ e))
        (false, { eng with state_manager := sm })
    | Except.ok names =>
        let eng1 := { eng with model := true, names := names }
        match env.moveTo eng1.device with
        | Except.ok _ =>
            (true, { eng1 with state_manager := eng1.state_manager.setState DetectionState.ready none })
        | Except.error _ =>
            match env.moveTo "cpu" with
            | Except.ok _ =>
                let eng2 := { eng1 with device := "cpu" }
                (true, { eng2 with state_manager := eng2.state_manager.setState DetectionState.ready none })
            | Except.error e2 =>
                let sm := eng1.state_manager.setState DetectionState.error (some ("Failed to load model: " ++ e2))
                (false, { eng1 with state_manager := sm })

/-- The class name of a raw box: self.model.names.get(class_id,
f"Class {class_id}"). -/
def className (names : List (ℕ × String)) (class_id : ℕ) : String :=
  match names.lookup class_id with
  | some n => n
  | none => "Class " ++ toString class_id

/-- The body of infer's per-box loop: drop a box below the confidence
threshold; when an allow-list is active (non-None and non-empty), drop a
box whose lowered class name is neither a member of the token set nor has
any token as a substring; otherwise build the Detection. -/
def processBox (eng : EngineState) (b : RawBox) : Option Detection :=
  if b.conf < eng.confidence_threshold then none
  else
    let class_name := className eng.names b.cls
    let det : Detection :=
      { bbox := b.xyxy, class_id := b.cls, class_name := class_name,
        confidence := b.conf }
    match eng.allowed_class_names with
    | none => some det
    | some toks =>
      if toks.isEmpty then some det
      else
        let name_lower := strLower class_name
        if !(toks.contains name_lower) &&
            !(toks.any (fun t => strContainsSub name_lower t)) then none
        else some det

/-- infer's nested loop over results (skipping a result whose boxes are
None) and over the boxes of each result. -/
def collectDetections (eng : EngineState) (results : List (Option (List RawBox))) :
    List Detection :=
  ((results.filterMap id).flatten).filterMap (processBox eng)

/-- One inference attempt of YOLOv8Engine.infer with no retry available:
run the model on the engine's device, collect the detections and cache
them on success, and return the empty list on any inference error. This
is exactly how infer behaves when _fallback_attempted is already True
(see infer_eq_inferOnce_after_fallback below). -/
def inferOnce (run : String → Except String (List (Option (List RawBox))))
    (eng : EngineState) : List Detection × EngineState :=
  if eng.model = false then ([], eng)
  else
    match run eng.device with
    | Except.ok results =>
        let detections := collectDetections eng results
        (detections, { eng with last_detections := detections })
    | Except.error _ => ([], eng)

/-- Model of YOLOv8Engine.infer. run d is the outcome of
self.model(frame, verbose=False, device=d) for the frame under
consideration, moveCpu the outcome of self.model.to("cpu") in the
fallback handler. On success the detections are cached in
last_detections; on a CUDA-NMS error with no fallback attempted yet, the
model is moved to the CPU device and infer retries once — the source
makes this recursive self.infer(frame) call with _fallback_attempted
already set to True, for which infer coincides with the single attempt
inferOnce (proved in infer_eq_inferOnce_after_fallback), so the
recursion is unrolled here; every other failure returns the empty
list. -/
def infer (run : String → Except String (List (Option (List RawBox))))
    (moveCpu : Except String Unit) (eng : EngineState) :
    List Detection × EngineState :=
  if eng.model = false then ([], eng)
  else
    match run eng.device with
    | Except.ok results =>
        let detections := collectDetections eng results
        (detections, { eng with last_detections := detections })
    | Except.error msg =>
        if (isCudaNmsError msg && !eng.fallback_attempted) = true then
          match moveCpu with
          | Except.ok _ =>
              inferOnce run { eng with device := "cpu", fallback_attempted := true }
          | Except.error _ => ([], eng)
        else ([], eng)

/-- Once the CPU fallback has been attempted, infer performs exactly one
inference attempt: the error branch can no longer retry, so infer and
inferOnce agree, which justifies modelling the recursive
self.infer(frame) call of the source by inferOnce. -/
theorem infer_eq_inferOnce_after_fallback
    (run : String → Except String (List (Option (List RawBox))))
    (mv : Except String Unit) (eng : EngineState)
    (hfa : eng.fallback_attempted = true) :
    infer run mv eng = inferOnce run eng := by
  unfold infer inferOnce
  by_cases hm : eng.model = false
  · simp [hm]
  · simp only [hm, if_false]
    cases hrun : run eng.device with
    | ok results => rfl
    | error msg => simp [hfa]

/-- Model of YOLOv8Engine.get_detections (the Python copy is value-equal). -/
def getDetections (eng : EngineState) : List Detection :=
  eng.last_detections

/-- Model of YOLOv8Engine.unload_model. -/
def unloadModel (eng : EngineState) : EngineState :=
  if eng.model = true then
    let sm := eng.state_manager.setState DetectionState.off none
    { eng with model := false, state_manager := sm }
  else eng

/-- Model of YOLOv8Engine.get_state. -/
def engineGetState (eng : EngineState) : DetectionState :=
  eng.state_manager.getState

/-! ### Engine lemmas (C4, C6, C9, C10) -/

/-- C10: with no model loaded, infer returns the empty list and leaves the
whole engine state — in particular the lifecycle state and the cached
last_detections — unchanged. -/
theorem infer_no_model (run : String → Except String (List (Option (List RawBox))))
    (mv : Except String Unit) (eng : EngineState) (hm : eng.model = false) :
    infer run mv eng = ([], eng) := by
  rw [infer.eq_def]
  simp [hm]

/-- Witness for C10 on a freshly constructed engine. -/
theorem infer_no_model_witness :
    infer (fun _ => Except.ok []) (Except.ok ()) (initialEngine 0 none false) =
      ([], initialEngine 0 none false) :=
  infer_no_model (fun _ => Except.ok []) (Except.ok ()) (initialEngine 0 none false) rfl

/-- With the fallback already attempted, a failing inference never retries:
it returns the empty list and leaves the engine unchanged. -/
theorem infer_error_after_fallback (run : String → Except String (List (Option (List RawBox))))
    (mv : Except String Unit) (eng : EngineState) (msg : String)
    (hm : eng.model = true) (hfa : eng.fallback_attempted = true)
    (herr : run eng.device = Except.error msg) :
    infer run mv eng = ([], eng) := by
  rw [infer.eq_def, hm, herr]
  simp [hfa]

/-- infer never touches the lifecycle state manager: whatever the outcome
of an inference call, the (state, error message) pair is unchanged. -/
theorem infer_preserves_state_manager
    (run : String → Except String (List (Option (List RawBox))))
    (mv : Except String Unit) (eng : EngineState) :
    ((infer run mv eng).2).state_manager = eng.state_manager := by
  have honce : ∀ eng2 : EngineState,
      ((inferOnce run eng2).2).state_manager = eng2.state_manager := by
    intro eng2
    unfold inferOnce
    by_cases hm : eng2.model = false
    · simp [hm]
    · rw [if_neg hm]
      cases hrun : run eng2.device with
      | ok results => rfl
      | error msg => rfl
  unfold infer
  by_cases hm : eng.model = false
  · simp [hm]
  · rw [if_neg hm]
    cases hrun : run eng.device with
    | ok results => rfl
    | error msg =>
      by_cases hc : (isCudaNmsError msg && !eng.fallback_attempted) = true
      · cases mv with
        | ok u =>
          simpa [hc] using honce { eng with device := "cpu", fallback_attempted := true }
        | error e => simp [hc]
      · simp [hc]

/-- C4: when infer fails on the current device with a CUDA/NMS
device-capability error and no fallback was attempted yet, it retries
exactly once on the CPU fallback device (the move to CPU succeeding); if
that retry also fails, infer returns the empty list, the lifecycle state
manager is unchanged (never set to ERROR), the fallback flag is now set,
and no later failing inference on the resulting engine ever retries
again. -/
theorem infer_cuda_fallback_once
    (run : String → Except String (List (Option (List RawBox))))
    (eng : EngineState) (msg msg2 : String)
    (hm : eng.model = true)
    (hfa : eng.fallback_attempted = false)
    (herr : run eng.device = Except.error msg)
    (hcuda : isCudaNmsError msg = true)
    (herr2 : run "cpu" = Except.error msg2) :
    infer run (Except.ok ()) eng =
      ([], { eng with device := "cpu", fallback_attempted := true }) ∧
    ((infer run (Except.ok ()) eng).2).state_manager = eng.state_manager ∧
    ((infer run (Except.ok ()) eng).2).fallback_attempted = true ∧
    (∀ (run2 : String → Except String (List (Option (List RawBox))))
       (mv2 : Except String Unit) (msg3 : String),
       run2 ((infer run (Except.ok ()) eng).2).device = Except.error msg3 →
       infer run2 mv2 ((infer run (Except.ok ()) eng).2) =
         ([], (infer run (Except.ok ()) eng).2)) := by
  have hm' : ¬ eng.model = false := by simp [hm]
  have heq : infer run (Except.ok ()) eng =
      ([], { eng with device := "cpu", fallback_attempted := true }) := by
    unfold infer
    rw [if_neg hm']
    rw [herr]
    have hc : (isCudaNmsError msg && !eng.fallback_attempted) = true := by
      rw [hcuda, hfa]
      rfl
    simp only [hc, if_true]
    unfold inferOnce
    rw [if_neg hm']
    have hdev : ({ eng with device := "cpu", fallback_attempted := true } :
        EngineState).device = "cpu" := rfl
    rw [hdev, herr2]
  refine ⟨heq, ?_, ?_, ?_⟩
  · rw [heq]
  · rw [heq]
  · intro run2 mv2 msg3 h3
    rw [heq] at h3 ⊢
    exact infer_error_after_fallback run2 mv2 _ msg3 hm rfl h3

/-- A concrete engine with a loaded model on the CUDA device, used to
instantiate the engine theorems. -/
def cudaEngine : EngineState :=
  { model := true
    confidence_threshold := 0
    state_manager := DetectionStateManager.initial
    last_detections := []
    allowed_class_names := none
    device := "cuda"
    fallback_attempted := false
    names := [] }

/-- Witness for C4: a run that always fails with a CUDA NMS error makes
infer fall back once to CPU and then give up with an empty result. -/
theorem infer_cuda_fallback_once_witness :
    infer (fun _ => Except.error "Could not run nms on CUDA backend")
        (Except.ok ()) cudaEngine =
      ([], { cudaEngine with device := "cpu", fallback_attempted := true }) :=
  (infer_cuda_fallback_once
    (fun _ => Except.error "Could not run nms on CUDA backend")
    cudaEngine "Could not run nms on CUDA backend"
    "Could not run nms on CUDA backend" rfl rfl rfl (by decide) rfl).1

/-- C6: load_model on a path that does not exist on disk returns False,
sets the lifecycle state to ERROR paired with a non-empty human-readable
message (so in particular not READY), and the state manager then stays
unchanged under inference; unload_model also leaves it unchanged when no
model is loaded, so only a new load attempt can leave ERROR. -/
theorem loadModel_missing_path (env : LoadEnv) (eng : EngineState)
    (model_path : String) (hpath : env.fsExists model_path = false) :
    (loadModel env eng model_path).1 = false ∧
    ((loadModel env eng model_path).2).state_manager.state = DetectionState.error ∧
    ((loadModel env eng model_path).2).state_manager.error_message =
      some ("Model file not found: " ++ model_path) ∧
    ("Model file not found: " ++ model_path) ≠ "" ∧
    ((loadModel env eng model_path).2).state_manager.state ≠ DetectionState.ready ∧
    (∀ (run : String → Except String (List (Option (List RawBox))))
       (mv : Except String Unit),
       ((infer run mv (loadModel env eng model_path).2).2).state_manager =
         ((loadModel env eng model_path).2).state_manager) ∧
    (eng.model = false →
       (unloadModel (loadModel env eng model_path).2).state_manager =
         ((loadModel env eng model_path).2).state_manager) := by
  have heq : loadModel env eng model_path =
      (false, { eng with state_manager := eng.state_manager.setState DetectionState.error (some ("Model file not found: " ++ model_path)) }) := by
    unfold loadModel
    rw [if_pos hpath]
  rw [heq]
  refine ⟨rfl, rfl, rfl, ?_, ?_, ?_, ?_⟩
  · intro habs
    have hd : ("Model file not found: " ++ model_path).data = "".data := by rw [habs]
    rw [String.data_append] at hd
    have h1 := (List.append_eq_nil.mp hd).1
    exact absurd h1 (by decide)
  · intro habs
    exact DetectionState.noConfusion (by simpa using habs)
  · intro run mv
    exact infer_preserves_state_manager run mv _
  · intro hm
    unfold unloadModel
    rw [if_neg]
    intro habs
    rw [show ({ eng with state_manager := eng.state_manager.setState DetectionState.error (some ("Model file not found: " ++ model_path)) } : EngineState).model = eng.model from rfl, hm] at habs
    exact Bool.noConfusion habs

/-- A load environment in which no path exists on disk. -/
def missingFileEnv : LoadEnv :=
  { fsExists := fun _ => false
    importOk := true
    yoloNames := fun _ => Except.ok []
    moveTo := fun _ => Except.ok () }

/-- Witness for C6 on a fresh engine and the path "missing.pt". -/
theorem loadModel_missing_path_witness :
    (loadModel missingFileEnv (initialEngine 0 none false) "missing.pt").1 = false ∧
    ((loadModel missingFileEnv (initialEngine 0 none false) "missing.pt").2).state_manager.state =
      DetectionState.error ∧
    ((loadModel missingFileEnv (initialEngine 0 none false) "missing.pt").2).state_manager.error_message =
      some ("Model file not found: " ++ "missing.pt") ∧
    ("Model file not found: " ++ "missing.pt") ≠ "" ∧
    ((loadModel missingFileEnv (initialEngine 0 none false) "missing.pt").2).state_manager.state ≠
      DetectionState.ready ∧
    (∀ (run : String → Except String (List (Option (List RawBox))))
       (mv : Except String Unit),
       ((infer run mv (loadModel missingFileEnv (initialEngine 0 none false) "missing.pt").2).2).state_manager =
         ((loadModel missingFileEnv (initialEngine 0 none false) "missing.pt").2).state_manager) ∧
    ((initialEngine 0 none false).model = false →
       (unloadModel (loadModel missingFileEnv (initialEngine 0 none false) "missing.pt").2).state_manager =
         ((loadModel missingFileEnv (initialEngine 0 none false) "missing.pt").2).state_manager) :=
  loadModel_missing_path missingFileEnv (initialEngine 0 none false) "missing.pt" rfl

/-- C9: set_confidence_threshold accepts every numeric argument and stores
its clamp max(0.0, min(1.0, t)), so the stored threshold always ends up in
[0.0, 1.0]. -/
theorem setConfidenceThreshold_clamps (eng : EngineState) (threshold : ℚ) :
    (setConfidenceThreshold eng threshold).confidence_threshold =
      max 0 (min 1 threshold) ∧
    0 ≤ (setConfidenceThreshold eng threshold).confidence_threshold ∧
    (setConfidenceThreshold eng threshold).confidence_threshold ≤ 1 := by
  refine ⟨rfl, le_max_left 0 _, ?_⟩
  have h1 : min 1 threshold ≤ 1 := min_le_left 1 threshold
  exact max_le (by norm_num) h1

/-- On a frame whose inference yields exactly one raw box, the detections
infer returns are exactly what the per-box filter yields on that box. -/
theorem infer_single_box
    (run : String → Except String (List (Option (List RawBox))))
    (mv : Except String Unit) (eng : EngineState) (b : RawBox)
    (hm : eng.model = true)
    (hrun : run eng.device = Except.ok [some [b]]) :
    (infer run mv eng).1 = (processBox eng b).toList := by
  unfold infer
  rw [if_neg (by simp [hm]), hrun]
  show collectDetections eng [some [b]] = (processBox eng b).toList
  cases hpb : processBox eng b with
  | none => simp [collectDetections, hpb]
  | some d => simp [collectDetections, hpb]

/-- The per-box filter with an active allow-list keeps a sufficiently
confident box exactly when the lowered class name is a token of the
allow-list or has some token of it as a substring. -/
theorem processBox_allowed (eng : EngineState) (b : RawBox)
    (toks : List String)
    (hconf : eng.confidence_threshold ≤ b.conf)
    (ha : eng.allowed_class_names = some toks) (hne : toks ≠ []) :
    processBox eng b =
      (if toks.contains (strLower (className eng.names b.cls)) = true ∨
          ∃ t ∈ toks, strContainsSub (strLower (className eng.names b.cls)) t = true
       then some { bbox := b.xyxy, class_id := b.cls,
                   class_name := className eng.names b.cls, confidence := b.conf }
       else none) := by
  unfold processBox
  rw [if_neg (not_lt.mpr hconf), ha]
  have hie : toks.isEmpty = false := by
    cases toks with
    | nil => exact absurd rfl hne
    | cons t ts => rfl
  simp only [hie, Bool.false_eq_true, if_false]
  by_cases hK : toks.contains (strLower (className eng.names b.cls)) = true ∨
      ∃ t ∈ toks, strContainsSub (strLower (className eng.names b.cls)) t = true
  · rw [if_pos hK]
    have hcond : (!(toks.contains (strLower (className eng.names b.cls))) &&
        !(toks.any (fun t => strContainsSub (strLower (className eng.names b.cls)) t))) = false := by
      rcases hK with hK | hK
      · rw [hK]
        rfl
      · obtain ⟨t, ht, hsub⟩ := hK
        have hany : toks.any
            (fun t => strContainsSub (strLower (className eng.names b.cls)) t) = true :=
          List.any_eq_true.mpr ⟨t, ht, hsub⟩
        rw [hany, Bool.not_true, Bool.and_false]
    simp only [hcond, Bool.false_eq_true, if_false]
  · rw [if_neg hK]
    push_neg at hK
    obtain ⟨h1, h2⟩ := hK
    have h1' : toks.contains (strLower (className eng.names b.cls)) = false :=
      Bool.not_eq_true _ ▸ h1
    have h2' : toks.any
        (fun t => strContainsSub (strLower (className eng.names b.cls)) t) = false := by
      rw [List.any_eq_false]
      intro t ht
      exact fun habs => h2 t ht habs
    have hcond : (!(toks.contains (strLower (className eng.names b.cls))) &&
        !(toks.any (fun t => strContainsSub (strLower (className eng.names b.cls)) t))) = true := by
      rw [h1', h2']
      rfl
    simp only [hcond, if_true]

/-- C5: with an active allow-list, infer keeps a sufficiently confident
raw detection if and only if its lowered class name is exactly one of the
allow-list tokens or contains some token as a substring; with the
allow-list None or empty, every class name is accepted. -/
theorem infer_allow_list_filter
    (run : String → Except String (List (Option (List RawBox))))
    (mv : Except String Unit) (eng : EngineState) (b : RawBox)
    (hm : eng.model = true)
    (hconf : eng.confidence_threshold ≤ b.conf)
    (hrun : run eng.device = Except.ok [some [b]]) :
    (∀ toks, eng.allowed_class_names = some toks → toks ≠ [] →
      (((infer run mv eng).1 =
          [{ bbox := b.xyxy, class_id := b.cls,
             class_name := className eng.names b.cls, confidence := b.conf }]) ↔
        (toks.contains (strLower (className eng.names b.cls)) = true ∨
         ∃ t ∈ toks,
           strContainsSub (strLower (className eng.names b.cls)) t = true)) ∧
      (((infer run mv eng).1 = []) ↔
        ¬ (toks.contains (strLower (className eng.names b.cls)) = true ∨
           ∃ t ∈ toks,
             strContainsSub (strLower (className eng.names b.cls)) t = true))) ∧
    ((eng.allowed_class_names = none ∨ eng.allowed_class_names = some []) →
      (infer run mv eng).1 =
        [{ bbox := b.xyxy, class_id := b.cls,
           class_name := className eng.names b.cls, confidence := b.conf }]) := by
  have hout := infer_single_box run mv eng b hm hrun
  constructor
  · intro toks htoks hne
    rw [hout, processBox_allowed eng b toks hconf htoks hne]
    by_cases hK : toks.contains (strLower (className eng.names b.cls)) = true ∨
        ∃ t ∈ toks, strContainsSub (strLower (className eng.names b.cls)) t = true
    · rw [if_pos hK]
      constructor
      · exact ⟨fun _ => hK, fun _ => rfl⟩
      · constructor
        · intro habs
          exact absurd habs (by simp)
        · intro habs
          exact absurd hK habs
    · rw [if_neg hK]
      constructor
      · constructor
        · intro habs
          exact absurd habs (by simp)
        · intro habs
          exact absurd habs hK
      · exact ⟨fun _ => hK, fun _ => rfl⟩
  · intro hnone
    rw [hout]
    unfold processBox
    rw [if_neg (not_lt.mpr hconf)]
    rcases hnone with hnone | hnone
    · rw [hnone]
      rfl
    · rw [hnone]
      rfl

/-- The engine of the spec's allow-list example: allow-list normalized to
the single token "red", class-name table holding "2x4 Red Brick" and
"Blue Plate". -/
def redFilterEngine : EngineState :=
  { model := true
    confidence_threshold := 0
    state_manager := DetectionStateManager.initial
    last_detections := []
    allowed_class_names := some ["red"]
    device := "cpu"
    fallback_attempted := false
    names := [(0, "2x4 Red Brick"), (1, "Blue Plate")] }

/-- Witness for C5: with allow-list {"red"}, a detection named
"2x4 Red Brick" is kept and one named "Blue Plate" is dropped. -/
theorem infer_allow_list_filter_witness :
    (infer (fun _ => Except.ok [some [{ conf := 1, xyxy := (0, 0, 2, 2), cls := 0 }]])
        (Except.ok ()) redFilterEngine).1 =
      [{ bbox := (0, 0, 2, 2), class_id := 0,
         class_name := className redFilterEngine.names 0, confidence := 1 }] ∧
    (infer (fun _ => Except.ok [some [{ conf := 1, xyxy := (0, 0, 2, 2), cls := 1 }]])
        (Except.ok ()) redFilterEngine).1 = [] := by
  constructor
  · exact (((infer_allow_list_filter
        (fun _ => Except.ok [some [{ conf := 1, xyxy := (0, 0, 2, 2), cls := 0 }]])
        (Except.ok ()) redFilterEngine { conf := 1, xyxy := (0, 0, 2, 2), cls := 0 }
        rfl (by decide) rfl).1 ["red"] rfl (by decide)).1).mpr
      (Or.inr ⟨"red", by decide, by decide⟩)
  · exact (((infer_allow_list_filter
        (fun _ => Except.ok [some [{ conf := 1, xyxy := (0, 0, 2, 2), cls := 1 }]])
        (Except.ok ()) redFilterEngine { conf := 1, xyxy := (0, 0, 2, 2), cls := 1 }
        rfl (by decide) rfl).1 ["red"] rfl (by decide)).2).mpr (by decide)
